import Mathlib

/-!
Shallow embedding of the per-frame update logic of the roaming-randy demo
(the method Game.move in src/main.py), together with theorems settling the
spec claims about it.

Modelling conventions.
Scalars are exact rationals.  Positions are pairs (horizontal) or triples.
Panda3D frame operations are embedded as follows:
  - node.setX(node, v) translates the node by v along its own local X axis;
    the world direction of that axis is passed in as a parameter u, with the
    hypothesis that u is a unit vector when a claim needs it.
  - node.setY(node, v) likewise translates along the local Y axis f.
  - vector.length() is a nonnegative scalar d with d^2 equal to the sum of
    squares of the components; it is passed as a parameter with that
    hypothesis, since sqrt is irrational in general.
  - vector.normalize() divides by the length when it is nonzero and leaves
    the zero vector unchanged (Panda3D behaviour), embedded with the same
    length parameter.
A collision hit entry carries the world-space surface Z
(entry.getSurfacePoint(render).getZ()) and the name of the into node
(entry.getIntoNode().getName()).  Python list.sort with a key is embedded
as insertion sort on the surface Z, which is stable like the original.
-/

/-- Constant CAMDIST_MAX from src/main.py line 31. -/
def CAMDIST_MAX : ℚ := 5

/-- Constant CAMDIST_MIN from src/main.py line 32. -/
def CAMDIST_MIN : ℚ := 2

/-- Constant CAMERA_POSITION_HEIGHT_DELTA_MIN from src/main.py line 34. -/
def CAMERA_POSITION_HEIGHT_DELTA_MIN : ℚ := 1

/-- Constant CAMERA_POSITION_HEIGHT_DELTA_MAX from src/main.py line 35. -/
def CAMERA_POSITION_HEIGHT_DELTA_MAX : ℚ := 2

/-- A collision hit entry: the world-space Z of the surface point and the
name of the into node that was struck. -/
structure HitEntry where
  surfaceZ : ℚ
  intoName : String
deriving DecidableEq

/-- The sort key order used on hit entries: compare by surface Z.
Embeds the Python key function lambda x: x.getSurfacePoint(render).getZ(). -/
def zle (a b : HitEntry) : Prop := a.surfaceZ ≤ b.surfaceZ

instance : DecidableRel zle :=
  fun a b => inferInstanceAs (Decidable (a.surfaceZ ≤ b.surfaceZ))

instance : IsTotal HitEntry zle :=
  ⟨fun a b => le_total a.surfaceZ b.surfaceZ⟩

instance : IsTrans HitEntry zle :=
  ⟨fun _ _ _ hab hbc => le_trans hab hbc⟩

/-- entries.sort(key=lambda x: x.getSurfacePoint(render).getZ()):
stable ascending sort by surface Z (src/main.py lines 241 and 252). -/
def sortEntries (l : List HitEntry) : List HitEntry := List.insertionSort zle l

/-- Squared horizontal separation between two points (the squared length of
p - c with the Z component zeroed). -/
def sepSq (c p : ℚ × ℚ) : ℚ := (p.1 - c.1) ^ 2 + (p.2 - c.2) ^ 2

/-- Planar dot product. -/
def dot2 (v w : ℚ × ℚ) : ℚ := v.1 * w.1 + v.2 * w.2

/-- Camera orbit step, src/main.py lines 183 to 186:
if cam-left is held, camera.setX(camera, -20 * dt);
if cam-right is held, camera.setX(camera, +20 * dt).
c is the camera position (horizontal), u the world direction of the camera
local X axis (the camera orientation, hence u, is unchanged by the
translations), dt the frame time, cl and cr the two key flags. -/
def orbitStep (c u : ℚ × ℚ) (dt : ℚ) (cl cr : Bool) : ℚ × ℚ :=
  let c1 := if cl then (c.1 + (-20 * dt) * u.1, c.2 + (-20 * dt) * u.2) else c
  if cr then (c1.1 + (20 * dt) * u.1, c1.2 + (20 * dt) * u.2) else c1

/-- Heading step, src/main.py lines 195 to 198:
if left is held, player.setH(player.getH() + 300 * dt);
if right is held, player.setH(player.getH() - 300 * dt). -/
def headingStep (h dt : ℚ) (l r : Bool) : ℚ :=
  let h1 := if l then h + 300 * dt else h
  if r then h1 - 300 * dt else h1

/-- Locomotion step, src/main.py lines 199 to 202:
if forward is held, player.setY(player, -25 * dt);
if backward is held, player.setY(player, 25 * dt).
pos is the player horizontal position, f the world direction of the player
local Y axis (unchanged by the translations). -/
def locomotionStep (pos f : ℚ × ℚ) (dt : ℚ) (fw bw : Bool) : ℚ × ℚ :=
  let p1 := if fw then (pos.1 + (-25 * dt) * f.1, pos.2 + (-25 * dt) * f.2) else pos
  if bw then (p1.1 + (25 * dt) * f.1, p1.2 + (25 * dt) * f.2) else p1

/-- Camera distance clamp, src/main.py lines 220 to 229.
camvec = player pos - camera pos with Z zeroed; camdist = camvec.length();
camvec.normalize(); if camdist > CAMDIST_MAX, move the camera along camvec by
(camdist - int(CAMDIST_MAX)) and set camdist = CAMDIST_MAX; then if
camdist < CAMDIST_MIN, move the camera along -camvec by
(int(CAMDIST_MIN) - camdist).  The length is passed in as d (with the
hypothesis d >= 0 and d^2 = sepSq c p in the theorems); normalize leaves the
zero vector unchanged, hence the d = 0 test. -/
def camClampStep (c p : ℚ × ℚ) (d : ℚ) : ℚ × ℚ :=
  let vx := p.1 - c.1
  let vy := p.2 - c.2
  let nx := if d = 0 then vx else vx / d
  let ny := if d = 0 then vy else vy / d
  let c1 := if CAMDIST_MAX < d then (c.1 + nx * (d - 5), c.2 + ny * (d - 5)) else c
  let d1 := if CAMDIST_MAX < d then CAMDIST_MAX else d
  if d1 < CAMDIST_MIN then (c1.1 - nx * (2 - d1), c1.2 - ny * (2 - d1)) else c1

/-- Player ground-ray resolution, src/main.py lines 240 to 246: sort the
entries ascending by surface Z; if the list is nonempty and the first entry
into-node name is "terrain", set the player Z to that surface Z (keeping the
post-move X and Y of cur); otherwise restore startpos. -/
def playerPosResolve (entries : List HitEntry) (cur startpos : ℚ × ℚ × ℚ) :
    ℚ × ℚ × ℚ :=
  match sortEntries entries with
  | [] => startpos
  | e :: _ => if e.intoName = "terrain" then (cur.1, cur.2.1, e.surfaceZ) else startpos

/-- Pure ground-height resolver named in the spec (section 9, design notes):
returns the terrain height exactly when the minimum-Z hit is tagged
"terrain". -/
def resolveGroundHeight (hits : List HitEntry) : Option ℚ :=
  match sortEntries hits with
  | [] => none
  | e :: _ => if e.intoName = "terrain" then some e.surfaceZ else none

/-- Camera ground-ray snap, src/main.py lines 251 to 255: sort the camera
ray entries ascending by surface Z; if the first is terrain, the camera Z
becomes that surface Z plus CAMERA_POSITION_HEIGHT_DELTA_MIN, else the
camera Z is left as it was. -/
def camSnapZ (entries : List HitEntry) (camZ : ℚ) : ℚ :=
  match sortEntries entries with
  | [] => camZ
  | e :: _ =>
    if e.intoName = "terrain" then e.surfaceZ + CAMERA_POSITION_HEIGHT_DELTA_MIN
    else camZ

/-- Camera height floor, src/main.py lines 256 to 257: if the camera Z is
below the player Z plus CAMERA_POSITION_HEIGHT_DELTA_MAX, raise it to that
floor. -/
def camFloorZ (camZ playerZ : ℚ) : ℚ :=
  if camZ < playerZ + CAMERA_POSITION_HEIGHT_DELTA_MAX then
    playerZ + CAMERA_POSITION_HEIGHT_DELTA_MAX
  else camZ

/-- The camera Z at the end of the frame: terrain snap then height floor
(src/main.py lines 251 to 257); playerZ is the player Z after its own
ground-ray resolution. -/
def camZResolve (entries : List HitEntry) (camZ playerZ : ℚ) : ℚ :=
  camFloorZ (camSnapZ entries camZ) playerZ

/-- Player state: position x y z and heading h. -/
structure PState where
  x : ℚ
  y : ℚ
  z : ℚ
  head : ℚ
deriving DecidableEq

/-- The player-related part of one frame of Game.move (src/main.py lines
191 to 246): record startpos = player.getPos(); apply the heading step and
the locomotion step (f is the world direction of the player local Y axis
after the heading step); then resolve the player ground ray.  The heading
is never part of startpos: only getPos/setPos are used for the rollback. -/
def playerFrame (s : PState) (l r fw bw : Bool) (f : ℚ × ℚ) (dt : ℚ)
    (entries : List HitEntry) : PState :=
  let h2 := headingStep s.head dt l r
  let p2 := locomotionStep (s.x, s.y) f dt fw bw
  let pos := playerPosResolve entries (p2.1, p2.2, s.z) (s.x, s.y, s.z)
  ⟨pos.1, pos.2.1, pos.2.2, h2⟩

/-- The key-state map of src/main.py line 46. -/
structure KeyMap where
  left : Bool
  right : Bool
  forward : Bool
  backward : Bool
  camLeft : Bool
  camRight : Bool
deriving DecidableEq

/-- The movement-key test of src/main.py line 207: forward or backward or
left or right. -/
def anyMoveKey (k : KeyMap) : Bool := k.forward || k.backward || k.left || k.right

/-- The animation actions the frame logic can issue. -/
inductive AnimAction where
  | startRunLoop : AnimAction
  | stopAndPoseWalk5 : AnimAction
deriving DecidableEq

/-- Animation selection, src/main.py lines 207 to 215: if any movement key
is held and isMoving is false, loop the run animation and set
isMoving := true; if no movement key is held and isMoving is true, stop and
pose walk at frame 5 and set isMoving := false.  Returns the new isMoving
flag and the list of actions issued this frame. -/
def animStep (isMoving anyKey : Bool) : Bool × List AnimAction :=
  if anyKey then
    if isMoving then (true, []) else (true, [AnimAction.startRunLoop])
  else
    if isMoving then (false, [AnimAction.stopAndPoseWalk5]) else (false, [])

/-- Run the animation selection over consecutive frames, threading the
isMoving flag; yields the per-frame action lists. -/
def animTrace (isMoving : Bool) : List KeyMap → List (List AnimAction)
  | [] => []
  | k :: ks =>
    let st := animStep isMoving (anyMoveKey k)
    st.2 :: animTrace st.1 ks

/-- Modelled from the spec words for claim C7: the actions a frame should
issue given the previous frame movement flag and the current one. -/
def expectedAnim (prev cur : Bool) : List AnimAction :=
  if cur && !prev then [AnimAction.startRunLoop]
  else if prev && !cur then [AnimAction.stopAndPoseWalk5]
  else []

/-- Modelled from the spec words for claim C7: the per-frame actions
demanded by the spec, pairing each frame movement flag with the previous
one (no key held before the first frame). -/
def specAnimTrace (ks : List KeyMap) : List (List AnimAction) :=
  ((false :: ks.map anyMoveKey).zip (ks.map anyMoveKey)).map
    fun pc => expectedAnim pc.1 pc.2

/-! ### Sorting helper lemmas -/

theorem sortEntries_perm (l : List HitEntry) : List.Perm (sortEntries l) l :=
  List.perm_insertionSort zle l

theorem sortEntries_sorted (l : List HitEntry) : List.Sorted zle (sortEntries l) :=
  List.sorted_insertionSort zle l

theorem sortEntries_head_min (l : List HitEntry) (e : HitEntry) (t : List HitEntry)
    (hs : sortEntries l = e :: t) : ∀ x ∈ l, e.surfaceZ ≤ x.surfaceZ := by
  intro x hx
  have hmem : x ∈ e :: t := by
    rw [← hs]
    exact (sortEntries_perm l).mem_iff.mpr hx
  rcases List.mem_cons.mp hmem with h | h
  · exact le_of_eq (by rw [h])
  · have hsorted : List.Sorted zle (e :: t) := by
      rw [← hs]; exact sortEntries_sorted l
    exact (List.sorted_cons.mp hsorted).1 x h

theorem sortEntries_eq_min (l : List HitEntry) (e : HitEntry) (he : e ∈ l)
    (hmin : ∀ x ∈ l, x ≠ e → e.surfaceZ < x.surfaceZ) :
    ∃ t, sortEntries l = e :: t := by
  cases hs : sortEntries l with
  | nil =>
    exfalso
    have hmem : e ∈ sortEntries l := (sortEntries_perm l).mem_iff.mpr he
    rw [hs] at hmem
    exact List.not_mem_nil e hmem
  | cons e0 t =>
    have he0 : e0 ∈ l := by
      have hmem : e0 ∈ sortEntries l := by rw [hs]; exact List.mem_cons_self e0 t
      exact (sortEntries_perm l).mem_iff.mp hmem
    have hle : e0.surfaceZ ≤ e.surfaceZ := sortEntries_head_min l e0 t hs e he
    by_cases heq : e0 = e
    · exact ⟨t, by rw [heq]⟩
    · exact absurd hle (not_le.mpr (hmin e0 he0 heq))

theorem playerPosResolve_of_none (entries : List HitEntry) (cur st : ℚ × ℚ × ℚ)
    (h : resolveGroundHeight entries = none) :
    playerPosResolve entries cur st = st := by
  unfold resolveGroundHeight at h
  unfold playerPosResolve
  cases hs : sortEntries entries with
  | nil => rfl
  | cons e t =>
    rw [hs] at h
    by_cases hn : e.intoName = "terrain"
    · exact absurd h (by simp [if_pos hn])
    · simp only [if_neg hn]

/-! ### Claim theorems -/

/-- C1: Ground-ray resolution.  For every list of hit entries from the
player downward ray, the player Z is snapped to the surface Z of the entry
with the lowest world-space Z (keeping the post-move X and Y) exactly when
that lowest entry into-node name equals "terrain"; if the lowest entry name
differs, or the entry list is empty, the player position reverts to its
pre-frame value startpos. -/
theorem ground_ray_resolution (entries : List HitEntry) (cur startpos : ℚ × ℚ × ℚ) :
    (entries = [] → playerPosResolve entries cur startpos = startpos) ∧
    (∀ e ∈ entries, (∀ x ∈ entries, x ≠ e → e.surfaceZ < x.surfaceZ) →
      (e.intoName = "terrain" →
        playerPosResolve entries cur startpos = (cur.1, cur.2.1, e.surfaceZ)) ∧
      (e.intoName ≠ "terrain" →
        playerPosResolve entries cur startpos = startpos)) := by
  constructor
  · intro h
    subst h
    rfl
  · intro e he hmin
    obtain ⟨t, hs⟩ := sortEntries_eq_min entries e he hmin
    unfold playerPosResolve
    rw [hs]
    constructor
    · intro hname
      simp only [if_pos hname]
    · intro hname
      simp only [if_neg hname]

/-- C1 witness: two hits with distinct Z, the lower one terrain: the player
Z snaps to the lower surface Z. -/
theorem ground_ray_resolution_witness :
    (⟨1, "terrain"⟩ : HitEntry) ∈ [(⟨2, "rock"⟩ : HitEntry), ⟨1, "terrain"⟩] ∧
    playerPosResolve [⟨2, "rock"⟩, ⟨1, "terrain"⟩] (10, 11, 12) (0, 0, 0) = (10, 11, 1) := by
  refine ⟨by simp, ?_⟩
  have h := (ground_ray_resolution [⟨2, "rock"⟩, ⟨1, "terrain"⟩] (10, 11, 12) (0, 0, 0)).2
    ⟨1, "terrain"⟩ (by simp) ?_ |>.1 rfl
  · exact h
  · intro x hx hne
    rcases List.mem_cons.mp hx with h1 | h1
    · rw [h1]; norm_num
    · rcases List.mem_cons.mp h1 with h2 | h2
      · exact absurd h2 hne
      · exact absurd h2 (List.not_mem_nil x)

theorem animStep_eq (m a : Bool) :
    animStep m a = (a, expectedAnim m a) := by
  cases m <;> cases a <;> simp [animStep, expectedAnim]

theorem animTrace_eq (m : Bool) (ks : List KeyMap) :
    animTrace m ks =
      ((m :: ks.map anyMoveKey).zip (ks.map anyMoveKey)).map
        (fun pc => expectedAnim pc.1 pc.2) := by
  induction ks generalizing m with
  | nil => rfl
  | cons k ks ih =>
    simp only [animTrace, animStep_eq, List.map_cons, List.zip_cons_cons, List.map]
    exact congrArg _ (ih (anyMoveKey k))

/-- C7: Animation state transitions.  Starting from isMoving = false, the
per-frame action lists over any sequence of key maps are exactly those the
spec demands: one startRunLoop action on each transition from no movement
key held to some movement key held, one stopAndPoseWalk5 action on each
transition from some to none, and nothing (in particular no restart of the
run loop) on frames where the movement flag is unchanged, whatever
combination of movement keys realises it. -/
theorem animation_transitions (ks : List KeyMap) :
    animTrace false ks = specAnimTrace ks := by
  rw [specAnimTrace]
  exact animTrace_eq false ks

/-- C8: Camera height floor.  At the end of the frame, after terrain
snapping, the camera Z is at least the player Z plus
CAMERA_POSITION_HEIGHT_DELTA_MAX; if the snapped value was below that floor
the camera is raised exactly to the floor, and otherwise it is left at the
snapped value. -/
theorem camera_height_floor (entries : List HitEntry) (camZ playerZ : ℚ) :
    playerZ + CAMERA_POSITION_HEIGHT_DELTA_MAX ≤ camZResolve entries camZ playerZ ∧
    (camSnapZ entries camZ < playerZ + CAMERA_POSITION_HEIGHT_DELTA_MAX →
      camZResolve entries camZ playerZ = playerZ + CAMERA_POSITION_HEIGHT_DELTA_MAX) ∧
    (playerZ + CAMERA_POSITION_HEIGHT_DELTA_MAX ≤ camSnapZ entries camZ →
      camZResolve entries camZ playerZ = camSnapZ entries camZ) := by
  unfold camZResolve camFloorZ
  split_ifs with h
  · exact ⟨le_refl _, fun _ => rfl, fun h2 => absurd h (not_lt.mpr h2)⟩
  · exact ⟨not_lt.mp h, fun h2 => absurd h2 h, fun _ => rfl⟩

/-- C8 witness: a terrain hit at Z = 0 snaps the camera to Z = 1, which is
below the floor 10 + 2, so the camera is raised exactly to 12. -/
theorem camera_height_floor_witness :
    camSnapZ [⟨0, "terrain"⟩] 5 < 10 + CAMERA_POSITION_HEIGHT_DELTA_MAX ∧
    camZResolve [⟨0, "terrain"⟩] 5 10 = 10 + CAMERA_POSITION_HEIGHT_DELTA_MAX := by
  have hlt : camSnapZ [⟨0, "terrain"⟩] 5 < 10 + CAMERA_POSITION_HEIGHT_DELTA_MAX := by
    norm_num [camSnapZ, sortEntries, CAMERA_POSITION_HEIGHT_DELTA_MIN,
      CAMERA_POSITION_HEIGHT_DELTA_MAX, List.insertionSort]
  exact ⟨hlt, (camera_height_floor [⟨0, "terrain"⟩] 5 10).2.1 hlt⟩

/-- C6: Heading rotation.  For every dt > 0, a frame holding only the left
key increases the player heading by exactly 300 * dt, and a frame holding
only the right key decreases it by exactly 300 * dt. -/
theorem heading_rotation (h dt : ℚ) (_hdt : 0 < dt) :
    headingStep h dt true false = h + 300 * dt ∧
    headingStep h dt false true = h - 300 * dt := by
  simp [headingStep]

/-- C6 witness: at heading 7 and dt = 1, left yields 307 and right yields
-293. -/
theorem heading_rotation_witness :
    (0:ℚ) < 1 ∧ headingStep 7 1 true false = 7 + 300 * 1 ∧
    headingStep 7 1 false true = 7 - 300 * 1 :=
  ⟨by norm_num, (heading_rotation 7 1 (by norm_num)).1,
    (heading_rotation 7 1 (by norm_num)).2⟩

/-- C10: Opposed-key cancellation.  In a single frame, holding both
cam-left and cam-right leaves the camera position unchanged by the orbit
step, holding both left and right leaves the heading unchanged, and holding
both forward and backward leaves the player position unchanged by the
locomotion step: the two displacements of each pair cancel exactly. -/
theorem opposed_keys_cancel (c u pos f : ℚ × ℚ) (dt h : ℚ) :
    orbitStep c u dt true true = c ∧
    headingStep h dt true true = h ∧
    locomotionStep pos f dt true true = pos := by
  refine ⟨?_, by simp [headingStep], ?_⟩
  · obtain ⟨cx, cy⟩ := c
    simp only [orbitStep, if_true]
    rw [Prod.mk.injEq]
    constructor <;> ring
  · obtain ⟨px, py⟩ := pos
    simp only [locomotionStep, if_true]
    rw [Prod.mk.injEq]
    constructor <;> ring

theorem camClampStep_far (c p : ℚ × ℚ) (d : ℚ) (hd0 : d ≠ 0)
    (hmax : CAMDIST_MAX < d) :
    camClampStep c p d =
      (c.1 + (p.1 - c.1) / d * (d - 5), c.2 + (p.2 - c.2) / d * (d - 5)) := by
  simp only [camClampStep]
  rw [if_neg hd0, if_neg hd0, if_pos hmax, if_pos hmax]
  have h52 : ¬ (CAMDIST_MAX < CAMDIST_MIN) := by
    norm_num [CAMDIST_MAX, CAMDIST_MIN]
  rw [if_neg h52]

theorem camClampStep_near (c p : ℚ × ℚ) (d : ℚ) (hd0 : d ≠ 0)
    (hmax : ¬ CAMDIST_MAX < d) (hmin : d < CAMDIST_MIN) :
    camClampStep c p d =
      (c.1 - (p.1 - c.1) / d * (2 - d), c.2 - (p.2 - c.2) / d * (2 - d)) := by
  simp only [camClampStep]
  rw [if_neg hd0, if_neg hd0, if_neg hmax, if_neg hmax, if_pos hmin]

theorem camClampStep_mid (c p : ℚ × ℚ) (d : ℚ)
    (hmax : ¬ CAMDIST_MAX < d) (hmin : ¬ d < CAMDIST_MIN) :
    camClampStep c p d = c := by
  simp only [camClampStep]
  rw [if_neg hmax, if_neg hmax, if_neg hmin]

/-- C2 counterexample: with camera and player at the same horizontal point
the separation is d = 0 (a legitimate length: 0 is nonnegative and
0 squared is the squared separation), yet after the clamp step the squared
separation is still 0, strictly below CAMDIST_MIN squared, so the claimed
bound MIN <= d' fails there. -/
theorem camera_clamp_zero_cex :
    (0:ℚ) ≤ 0 ∧ (0:ℚ) ^ 2 = sepSq (0, 0) (0, 0) ∧
    ¬ (CAMDIST_MIN ^ 2 ≤ sepSq (camClampStep (0, 0) (0, 0) 0) (0, 0)) := by
  refine ⟨le_refl 0, by norm_num [sepSq], ?_⟩
  norm_num [sepSq, camClampStep, CAMDIST_MIN, CAMDIST_MAX]

/-- C2 amended: for every positive horizontal separation d (d > 0, with
d the length of the horizontal camera-to-player vector), the squared
separation after the clamp step lies between CAMDIST_MIN squared and
CAMDIST_MAX squared, and if d was already within the bounds the camera is
not moved by this step.  (At d = 0 the step leaves the camera in place and
the separation stays 0, below CAMDIST_MIN.) -/
theorem camera_clamp_bounds (c p : ℚ × ℚ) (d : ℚ)
    (hlen : d ^ 2 = sepSq c p) (hpos : 0 < d) :
    CAMDIST_MIN ^ 2 ≤ sepSq (camClampStep c p d) p ∧
    sepSq (camClampStep c p d) p ≤ CAMDIST_MAX ^ 2 ∧
    (CAMDIST_MIN ≤ d → d ≤ CAMDIST_MAX → camClampStep c p d = c) := by
  have hd0 : d ≠ 0 := ne_of_gt hpos
  rw [sepSq] at hlen
  by_cases hmax : CAMDIST_MAX < d
  · rw [camClampStep_far c p d hd0 hmax]
    have h25 : sepSq
        (c.1 + (p.1 - c.1) / d * (d - 5), c.2 + (p.2 - c.2) / d * (d - 5)) p = 25 := by
      rw [sepSq]
      have e1 : p.1 - (c.1 + (p.1 - c.1) / d * (d - 5)) = (p.1 - c.1) * (5 / d) := by
        field_simp
        ring
      have e2 : p.2 - (c.2 + (p.2 - c.2) / d * (d - 5)) = (p.2 - c.2) * (5 / d) := by
        field_simp
        ring
      rw [e1, e2]
      have hsum : ((p.1 - c.1) * (5 / d)) ^ 2 + ((p.2 - c.2) * (5 / d)) ^ 2 =
          ((p.1 - c.1) ^ 2 + (p.2 - c.2) ^ 2) * (25 / d ^ 2) := by
        field_simp
        ring
      rw [hsum, ← hlen]
      field_simp
  -- simp only does not close goals, keep explicit
    rw [h25]
    refine ⟨by norm_num [CAMDIST_MIN], by norm_num [CAMDIST_MAX], ?_⟩
    intro _ h2
    exact absurd hmax (not_lt.mpr h2)
  · by_cases hmin : d < CAMDIST_MIN
    · rw [camClampStep_near c p d hd0 hmax hmin]
      have h4 : sepSq
          (c.1 - (p.1 - c.1) / d * (2 - d), c.2 - (p.2 - c.2) / d * (2 - d)) p = 4 := by
        rw [sepSq]
        have e1 : p.1 - (c.1 - (p.1 - c.1) / d * (2 - d)) = (p.1 - c.1) * (2 / d) := by
          field_simp
          ring
        have e2 : p.2 - (c.2 - (p.2 - c.2) / d * (2 - d)) = (p.2 - c.2) * (2 / d) := by
          field_simp
          ring
        rw [e1, e2]
        have hsum : ((p.1 - c.1) * (2 / d)) ^ 2 + ((p.2 - c.2) * (2 / d)) ^ 2 =
            ((p.1 - c.1) ^ 2 + (p.2 - c.2) ^ 2) * (4 / d ^ 2) := by
          field_simp
          ring
        rw [hsum, ← hlen]
        field_simp
      rw [h4]
      refine ⟨by norm_num [CAMDIST_MIN], by norm_num [CAMDIST_MAX], ?_⟩
      intro h1 _
      exact absurd hmin (not_lt.mpr h1)
    · rw [camClampStep_mid c p d hmax hmin]
      have hd2 : sepSq c p = d ^ 2 := by rw [sepSq, ← hlen]
      rw [hd2]
      have h2d : CAMDIST_MIN ≤ d := not_lt.mp hmin
      have hd5 : d ≤ CAMDIST_MAX := not_lt.mp hmax
      rw [CAMDIST_MIN] at h2d ⊢
      rw [CAMDIST_MAX] at hd5 ⊢
      refine ⟨by nlinarith, by nlinarith, fun _ _ => rfl⟩

/-- C2 witness: camera at the origin, player 3 units away: within bounds,
so the squared separation is at least 4 and the camera is unmoved. -/
theorem camera_clamp_bounds_witness :
    (3:ℚ) ^ 2 = sepSq (0, 0) (0, 3) ∧ (0:ℚ) < 3 ∧
    CAMDIST_MIN ^ 2 ≤ sepSq (camClampStep (0, 0) (0, 3) 3) (0, 3) ∧
    camClampStep (0, 0) (0, 3) 3 = (0, 0) := by
  have hlen : (3:ℚ) ^ 2 = sepSq (0, 0) (0, 3) := by norm_num [sepSq]
  have h := camera_clamp_bounds (0, 0) (0, 3) 3 hlen (by norm_num)
  exact ⟨hlen, by norm_num, h.1,
    h.2.2 (by norm_num [CAMDIST_MIN]) (by norm_num [CAMDIST_MAX])⟩

/-- C9: Zero-separation edge case.  If the horizontal separation between
camera and player is exactly zero when the clamp step runs, the step does
not move the camera (normalize leaves the zero vector as the zero vector,
so the push-away displacement vanishes) and the squared separation remains
0, still below CAMDIST_MIN squared. -/
theorem camera_clamp_zero_sep (c p : ℚ × ℚ) (hsep : sepSq c p = 0) :
    camClampStep c p 0 = c ∧ sepSq (camClampStep c p 0) p = 0 ∧
    sepSq (camClampStep c p 0) p < CAMDIST_MIN ^ 2 := by
  obtain ⟨cx, cy⟩ := c
  obtain ⟨px, py⟩ := p
  simp only [sepSq] at hsep
  have hx : px - cx = 0 := by nlinarith [sq_nonneg (px - cx), sq_nonneg (py - cy)]
  have hy : py - cy = 0 := by nlinarith [sq_nonneg (px - cx), sq_nonneg (py - cy)]
  have hstep : camClampStep (cx, cy) (px, py) 0 = (cx, cy) := by
    simp only [camClampStep]
    norm_num [CAMDIST_MAX, CAMDIST_MIN, hx, hy]
  refine ⟨hstep, ?_, ?_⟩
  · rw [hstep]
    simp only [sepSq]
    linarith
  · rw [hstep]
    simp only [sepSq]
    rw [CAMDIST_MIN]
    nlinarith

/-- C9 witness: camera and player both at the point 1, 2. -/
theorem camera_clamp_zero_sep_witness :
    sepSq (1, 2) (1, 2) = 0 ∧ camClampStep (1, 2) (1, 2) 0 = (1, 2) := by
  have hsep : sepSq ((1:ℚ), (2:ℚ)) (1, 2) = 0 := by norm_num [sepSq]
  exact ⟨hsep, (camera_clamp_zero_sep (1, 2) (1, 2) hsep).1⟩

/-- C4 counterexample: camera at the point 0, 3 looking with local X axis
1, 0 (a unit vector), player at the origin, dt a tenth of a second,
cam-left held: the orbit step changes the squared camera-to-player
separation from 9 to 13, so the motion in this step is not a rotation about
the player (a rotation would preserve the separation). -/
theorem camera_orbit_cex :
    (1:ℚ) ^ 2 + (0:ℚ) ^ 2 = 1 ∧
    sepSq (orbitStep (0, 3) (1, 0) (1 / 10) true false) (0, 0) ≠
      sepSq ((0:ℚ), (3:ℚ)) (0, 0) := by
  constructor
  · norm_num
  · norm_num [orbitStep, sepSq]

/-- C4 amended: in a frame in which only cam-left (resp. only cam-right) is
held, the camera is translated along its own local X axis by a displacement
of squared length (20 * dt) squared, in the negative (resp. positive) local
X direction; this is a translation, not a rotation about the player, and
the camera distance to the player is generally changed by it (the distance
clamp step afterwards re-establishes the distance bounds). -/
theorem camera_orbit_translation (c u : ℚ × ℚ) (dt : ℚ)
    (hu : u.1 ^ 2 + u.2 ^ 2 = 1) :
    sepSq c (orbitStep c u dt true false) = (20 * dt) ^ 2 ∧
    dot2 ((orbitStep c u dt true false).1 - c.1,
      (orbitStep c u dt true false).2 - c.2) u = -(20 * dt) ∧
    sepSq c (orbitStep c u dt false true) = (20 * dt) ^ 2 ∧
    dot2 ((orbitStep c u dt false true).1 - c.1,
      (orbitStep c u dt false true).2 - c.2) u = 20 * dt := by
  obtain ⟨cx, cy⟩ := c
  obtain ⟨ux, uy⟩ := u
  simp only [sepSq, dot2, orbitStep] at hu ⊢
  norm_num
  refine ⟨?_, ?_, ?_, ?_⟩
  · linear_combination (400 * dt ^ 2) * hu
  · linear_combination (-20 * dt) * hu
  · linear_combination (400 * dt ^ 2) * hu
  · linear_combination (20 * dt) * hu

/-- C4 witness: a unit local X axis 0, 1 and dt = 1: the cam-left step
displaces the camera by squared length 400. -/
theorem camera_orbit_translation_witness :
    (0:ℚ) ^ 2 + (1:ℚ) ^ 2 = 1 ∧
    sepSq (0, 0) (orbitStep (0, 0) (0, 1) 1 true false) = (20 * 1) ^ 2 :=
  ⟨by norm_num, (camera_orbit_translation (0, 0) (0, 1) 1 (by norm_num)).1⟩

/-- C5: Forward and backward locomotion.  For every dt > 0, a frame holding
only forward translates the player by exactly 25 * dt in the negative local
Y direction: the displacement has component -(25 * dt) along the local Y
axis f (a unit vector) and component 0 along the perpendicular axis, so the
local Y coordinate decreases by exactly 25 * dt; holding only backward
gives component 25 * dt along f, increasing the local Y coordinate by
exactly 25 * dt. -/
theorem locomotion_local_y (pos f : ℚ × ℚ) (dt : ℚ)
    (hu : f.1 ^ 2 + f.2 ^ 2 = 1) (_hdt : 0 < dt) :
    dot2 ((locomotionStep pos f dt true false).1 - pos.1,
      (locomotionStep pos f dt true false).2 - pos.2) f = -(25 * dt) ∧
    dot2 ((locomotionStep pos f dt true false).1 - pos.1,
      (locomotionStep pos f dt true false).2 - pos.2) (-f.2, f.1) = 0 ∧
    dot2 ((locomotionStep pos f dt false true).1 - pos.1,
      (locomotionStep pos f dt false true).2 - pos.2) f = 25 * dt ∧
    dot2 ((locomotionStep pos f dt false true).1 - pos.1,
      (locomotionStep pos f dt false true).2 - pos.2) (-f.2, f.1) = 0 := by
  obtain ⟨px, py⟩ := pos
  obtain ⟨fx, fy⟩ := f
  simp only [dot2, locomotionStep] at hu ⊢
  norm_num
  refine ⟨?_, ?_, ?_, ?_⟩
  · linear_combination (-25 * dt) * hu
  · ring
  · linear_combination (25 * dt) * hu
  · ring

/-- C5 witness: local Y axis 0, 1, dt = 1: forward gives local Y component
-25, backward gives 25. -/
theorem locomotion_local_y_witness :
    (0:ℚ) ^ 2 + (1:ℚ) ^ 2 = 1 ∧ (0:ℚ) < 1 ∧
    dot2 ((locomotionStep (0, 0) (0, 1) 1 true false).1 - 0,
      (locomotionStep (0, 0) (0, 1) 1 true false).2 - 0) (0, 1) = -(25 * 1) := by
  have h := locomotion_local_y (0, 0) (0, 1) 1 (by norm_num) (by norm_num)
  exact ⟨by norm_num, by norm_num, h.1⟩

/-- C3 counterexample: pre-frame state at the origin with heading 0,
holding only the left key, dt a tenth of a second, and an empty hit list
(the move is rejected).  The resulting state keeps the rotated heading 30:
the player transform is not fully restored to its pre-frame value, because
only getPos/setPos participate in the rollback. -/
theorem rollback_heading_cex :
    playerFrame ⟨0, 0, 0, 0⟩ true false false false (0, 1) (1 / 10) [] =
      ⟨0, 0, 0, 30⟩ ∧
    (⟨0, 0, 0, 30⟩ : PState) ≠ ⟨0, 0, 0, 0⟩ := by
  constructor
  · simp only [playerFrame, headingStep, locomotionStep, playerPosResolve,
      sortEntries, List.insertionSort]
    norm_num
  · intro h
    have h30 : (30:ℚ) = 0 := congrArg PState.head h
    norm_num at h30

/-- C3 amended: when the move is rejected by collision (no hit, or the
nearest hit is not terrain), the player position x, y, z is restored to the
value saved before the move, but the heading is not restored: it keeps the
value produced by the heading step of this frame. -/
theorem rollback_position_only (s : PState) (l r fw bw : Bool) (f : ℚ × ℚ)
    (dt : ℚ) (entries : List HitEntry)
    (hrej : resolveGroundHeight entries = none) :
    (playerFrame s l r fw bw f dt entries).x = s.x ∧
    (playerFrame s l r fw bw f dt entries).y = s.y ∧
    (playerFrame s l r fw bw f dt entries).z = s.z ∧
    (playerFrame s l r fw bw f dt entries).head = headingStep s.head dt l r := by
  simp only [playerFrame, playerPosResolve_of_none entries _ _ hrej]
  exact ⟨trivial, trivial, trivial, trivial⟩

/-- C3 amended witness: a single rock hit rejects the move; position 1, 2, 3
is restored while the heading advances from 4 by the heading step. -/
theorem rollback_position_only_witness :
    resolveGroundHeight [⟨7, "rock"⟩] = none ∧
    (playerFrame ⟨1, 2, 3, 4⟩ true false true false (0, 1) 1 [⟨7, "rock"⟩]).x = 1 ∧
    (playerFrame ⟨1, 2, 3, 4⟩ true false true false (0, 1) 1 [⟨7, "rock"⟩]).y = 2 ∧
    (playerFrame ⟨1, 2, 3, 4⟩ true false true false (0, 1) 1 [⟨7, "rock"⟩]).z = 3 := by
  have hrej : resolveGroundHeight [(⟨7, "rock"⟩ : HitEntry)] = none := by
    simp [resolveGroundHeight, sortEntries, List.insertionSort]
  have h := rollback_position_only ⟨1, 2, 3, 4⟩ true false true false (0, 1) 1
    [⟨7, "rock"⟩] hrej
  exact ⟨hrej, h.1, h.2.1, h.2.2.1⟩
